import Mathlib

/-!
Verification of the html5-escape escaping engine.

Strings are modelled as lists of Unicode code points (`List Nat`), matching
the source's treatment of well-formed Unicode input (the package disclaims
unpaired surrogates).  The engine itself is embedded from the two variant
`Escaper` classes in the repository: the one in `src/unnamed/part_000`
(consulting the table named `map`, non-ascii ceiling U+9999) and the one in
`src/src/entities.ts` (consulting the `replacements` table, non-ascii
ceiling U+99999).  Apart from the ceiling the two classes are textually
identical, so they share the embedded building blocks below.
-/

/-- The ASCII class `[a-zA-Z0-9]` used by the ampersand lookahead. -/
def isAlnum (c : Nat) : Bool :=
  (48 ≤ c && c ≤ 57) || (65 ≤ c && c ≤ 90) || (97 ≤ c && c ≤ 122)

/-- The class `[\w ]` (ASCII word characters and space) of the fast path. -/
def isWordOrSpace (c : Nat) : Bool :=
  isAlnum c || c == 95 || c == 32

/-- `isSafe`: the fast-path test `/^[\w ]*$/.test(value)`. -/
def isSafe (value : List Nat) : Bool :=
  value.all isWordOrSpace

/-- `replaceNull`: `value.replace(/\0/g, '�')`. -/
def replaceNull (value : List Nat) : List Nat :=
  value.map (fun c => if c == 0 then 0xfffd else c)

/-- Modelled from the spec: the Entity Table (the data file `data/entities`
is not part of the source tree).  The spec describes a static map from a
single character to its canonical named entity -- the lexicographically
largest candidate name, hence the form with the trailing semicolon -- and
its examples fix the entries for the five markup-significant characters:
ampersand to `&amp;`, less-than to `&lt;`, greater-than to `&gt;`,
double quote to `&quot;`, apostrophe to `&apos;`. -/
def entityLookup (s : List Nat) : Option (List Nat) :=
  if s = [38] then some [38, 97, 109, 112, 59]
  else if s = [60] then some [38, 108, 116, 59]
  else if s = [62] then some [38, 103, 116, 59]
  else if s = [34] then some [38, 113, 117, 111, 116, 59]
  else if s = [39] then some [38, 97, 112, 111, 115, 59]
  else none

/-- Modelled from the spec: the Replacement Table (the data file `data/map`
alias `data/replacements` is not part of the source tree).  The spec says
each entry maps a "normally invisible or ambiguous" character, naming NBSP
and soft hyphen, to a visually equivalent unambiguous substitute: NBSP
(U+00A0) to the plain space and soft hyphen (U+00AD) to the hyphen-minus. -/
def mapLookup (s : List Nat) : Option (List Nat) :=
  if s = [160] then some [32]
  else if s = [173] then some [45]
  else none

/-- `EscapeBase`: the numeric base for the numeric-reference fallback. -/
inductive EscapeBase
  | base10
  | base16
deriving DecidableEq

/-- `EscapeRange`: the three configurable range passes. -/
inductive EscapeRange
  | control
  | nonbreakingSpace
  | nonAscii
deriving DecidableEq

/-- `Options` of the `Escaper` constructor. -/
structure Options where
  forceEscape : Bool
  escapeRanges : List EscapeRange
  escapeBase : EscapeBase
deriving DecidableEq

/-- `Options.defaults`. -/
def Options.defaults : Options :=
  ⟨true, [EscapeRange.control, EscapeRange.nonbreakingSpace], EscapeBase.base16⟩

/-- Lowercase digit characters as produced by JS `Number.toString(radix)`. -/
def digitChar (d : Nat) : Nat :=
  if d < 10 then 48 + d else 87 + d

/-- Fuel-driven base conversion, most significant digit first; with fuel
above `n` this is the base-`b` digit string of `n`. -/
def natDigitsAux (b : Nat) : Nat → Nat → List Nat
  | _, 0 => []
  | n, fuel + 1 =>
    if n < b then [digitChar n]
    else natDigitsAux b (n / b) fuel ++ [digitChar (n % b)]

/-- Decimal digit string of `n` (JS template interpolation of a number). -/
def natDigits10 (n : Nat) : List Nat := natDigitsAux 10 n (n + 1)

/-- Lowercase hexadecimal digit string of `n` (JS `n.toString(16)`). -/
def natDigits16 (n : Nat) : List Nat := natDigitsAux 16 n (n + 1)

/-- The numeric character reference of the `switch (escapeBase)` fallback:
`&#` plus decimal digits, or `&#x` plus lowercase hex digits. -/
def numericEntity (base : EscapeBase) (codePoint : Nat) : List Nat :=
  match base with
  | EscapeBase.base10 => [38, 35] ++ natDigits10 codePoint
  | EscapeBase.base16 => [38, 35, 120] ++ natDigits16 codePoint

/-- `Escaper._escapeCharacter`: replacement-table substitution (under
`forceEscape`; otherwise the character passes through), then entity-table
lookup, then the numeric fallback on `codePointAt(0)` of what remains. -/
def escapeCharacter (o : Options) (c : Nat) : List Nat :=
  match mapLookup [c] with
  | some repl =>
    if o.forceEscape then
      match entityLookup repl with
      | some entity => entity
      | none => numericEntity o.escapeBase (repl.headD 0)
    else [c]
  | none =>
    match entityLookup [c] with
    | some entity => entity
    | none => numericEntity o.escapeBase c

/-- `Escaper._escapeAmpersand`: the pass
`value.replace(/&(?=[a-zA-Z0-9])/g, s => this._escapeCharacter(s))`;
the lookahead does not consume the following character. -/
def escapeAmpersand (o : Options) : List Nat → List Nat
  | [] => []
  | [c] => [c]
  | c :: d :: rest =>
    if c == 38 && isAlnum d then escapeCharacter o 38 ++ escapeAmpersand o (d :: rest)
    else c :: escapeAmpersand o (d :: rest)

/-- One global `String.replace` pass with a single-character class `p` and
a replacement callback `f`; replacement text is emitted, never rescanned. -/
def replaceChars (p : Nat → Bool) (f : Nat → List Nat) : List Nat → List Nat
  | [] => []
  | c :: rest => (if p c then f c else [c]) ++ replaceChars p f rest

/-- The class of the control pass: `[\0-\x1F\x7f\x80-\x9f]`. -/
def inControl (c : Nat) : Bool :=
  c ≤ 0x1f || c == 0x7f || (0x80 ≤ c && c ≤ 0x9f)

/-- The class of the non-ascii pass with the variant's ceiling `hi`:
the map variant caps it at code point 0x9999, the other at 0x99999. -/
def inNonAscii (hi : Nat) (c : Nat) : Bool :=
  0x80 ≤ c && c ≤ hi

/-- `Escaper._escapeRanges`: the three sequential optional passes
(control, then nonbreaking-space, then non-ascii with ceiling `hi`). -/
def escapeRangesPass (hi : Nat) (o : Options) (value : List Nat) : List Nat :=
  let v1 :=
    if EscapeRange.control ∈ o.escapeRanges then
      replaceChars inControl (escapeCharacter o) value
    else value
  let v2 :=
    if EscapeRange.nonbreakingSpace ∈ o.escapeRanges then
      replaceChars (fun c => c == 0xa0) (escapeCharacter o) v1
    else v1
  if EscapeRange.nonAscii ∈ o.escapeRanges then
    replaceChars (inNonAscii hi) (escapeCharacter o) v2
  else v2

/-- The shared skeleton of the four public operations: fast path, else NUL
substitution, ampersand pre-escaping, the context's mandatory-character
pass `p`, and the range passes with non-ascii ceiling `hi`. -/
def escapeGeneric (hi : Nat) (p : Nat → Bool) (o : Options) (value : List Nat) : List Nat :=
  if isSafe value then value
  else escapeRangesPass hi o (replaceChars p (escapeCharacter o) (escapeAmpersand o (replaceNull value)))

/-- The mandatory character class of the unquoted-attribute context:
tab, newline, form feed, space, less-than, greater-than, equals,
double quote, apostrophe, backtick. -/
def unquotedMandatory (c : Nat) : Bool :=
  c == 9 || c == 10 || c == 12 || c == 32 || c == 60 ||
    c == 62 || c == 61 || c == 34 || c == 39 || c == 96

namespace Escaper

/-- `Escaper.escapeData` of `src/unnamed/part_000`. -/
def escapeData (o : Options) (value : List Nat) : List Nat :=
  escapeGeneric 0x9999 (fun c => c == 60) o value

/-- `Escaper.escapeDoubleQuotedAttribute` of `src/unnamed/part_000`. -/
def escapeDoubleQuotedAttribute (o : Options) (value : List Nat) : List Nat :=
  escapeGeneric 0x9999 (fun c => c == 34) o value

/-- `Escaper.escapeSingleQuotedAttribute` of `src/unnamed/part_000`. -/
def escapeSingleQuotedAttribute (o : Options) (value : List Nat) : List Nat :=
  escapeGeneric 0x9999 (fun c => c == 39) o value

/-- `Escaper.escapeUnquotedAttribute` of `src/unnamed/part_000`. -/
def escapeUnquotedAttribute (o : Options) (value : List Nat) : List Nat :=
  escapeGeneric 0x9999 unquotedMandatory o value

end Escaper

namespace EntitiesEscaper

/-- `Escaper.escapeData` of `src/src/entities.ts`. -/
def escapeData (o : Options) (value : List Nat) : List Nat :=
  escapeGeneric 0x99999 (fun c => c == 60) o value

/-- `Escaper.escapeDoubleQuotedAttribute` of `src/src/entities.ts`. -/
def escapeDoubleQuotedAttribute (o : Options) (value : List Nat) : List Nat :=
  escapeGeneric 0x99999 (fun c => c == 34) o value

/-- `Escaper.escapeSingleQuotedAttribute` of `src/src/entities.ts`. -/
def escapeSingleQuotedAttribute (o : Options) (value : List Nat) : List Nat :=
  escapeGeneric 0x99999 (fun c => c == 39) o value

/-- `Escaper.escapeUnquotedAttribute` of `src/src/entities.ts`. -/
def escapeUnquotedAttribute (o : Options) (value : List Nat) : List Nat :=
  escapeGeneric 0x99999 unquotedMandatory o value

end EntitiesEscaper

/-- The configuration with the non-ascii range enabled in addition to the
defaults; used to compare the two variants' non-ascii ceilings. -/
def optionsNonAscii : Options :=
  ⟨true, [EscapeRange.control, EscapeRange.nonbreakingSpace, EscapeRange.nonAscii], EscapeBase.base16⟩

/-- The characters that escape text can consist of: ampersand, hash,
semicolon and ASCII alphanumerics.  Every named entity of the modelled
Entity Table and every numeric character reference is built from these. -/
def inertChar (c : Nat) : Bool :=
  c == 38 || c == 35 || c == 59 || isAlnum c

/-- The two quote characters, double quote and apostrophe. -/
def isQuote (c : Nat) : Bool :=
  c == 34 || c == 39

example : Escaper.escapeData Options.defaults [60] = [38, 108, 116, 59] := by decide

example : Escaper.escapeUnquotedAttribute Options.defaults [97, 32, 98] = [97, 32, 98] := by decide

example : Escaper.escapeData Options.defaults [0] = [0xfffd] := by decide

/-! ### Character-level facts -/

theorem inertChar_digitChar (d : Nat) (hd : d < 16) : inertChar (digitChar d) = true := by
  simp only [inertChar, digitChar, isAlnum]
  split <;> simp <;> omega

theorem mem_natDigitsAux_inert {b : Nat} (hb : 0 < b) (hb16 : b ≤ 16) :
    ∀ fuel n x, x ∈ natDigitsAux b n fuel → inertChar x = true := by
  intro fuel
  induction fuel with
  | zero => intro n x hx; simp [natDigitsAux] at hx
  | succ fuel ih =>
    intro n x hx
    simp only [natDigitsAux] at hx
    split at hx
    · simp only [List.mem_singleton] at hx
      subst hx
      exact inertChar_digitChar _ (by omega)
    · rcases List.mem_append.mp hx with h | h
      · exact ih _ _ h
      · simp only [List.mem_singleton] at h
        subst h
        have := Nat.mod_lt n hb
        exact inertChar_digitChar _ (by omega)

theorem natDigitsAux_ne_nil (b n fuel : Nat) (h : 0 < fuel) : natDigitsAux b n fuel ≠ [] := by
  cases fuel with
  | zero => omega
  | succ fuel =>
    simp only [natDigitsAux]
    split
    · simp
    · simp

theorem mem_numericEntity_inert (base : EscapeBase) (cp : Nat) :
    ∀ x ∈ numericEntity base cp, inertChar x = true := by
  intro x hx
  cases base with
  | base10 =>
    simp only [numericEntity, natDigits10] at hx
    rcases List.mem_append.mp hx with h | h
    · fin_cases h <;> decide
    · exact mem_natDigitsAux_inert (by omega) (by omega) _ _ _ h
  | base16 =>
    simp only [numericEntity, natDigits16] at hx
    rcases List.mem_append.mp hx with h | h
    · fin_cases h <;> decide
    · exact mem_natDigitsAux_inert (by omega) (by omega) _ _ _ h

theorem numericEntity_ne_nil (base : EscapeBase) (cp : Nat) : numericEntity base cp ≠ [] := by
  cases base <;> simp [numericEntity]

theorem numericEntity_head (base : EscapeBase) (cp : Nat) :
    (numericEntity base cp).head? = some 38 := by
  cases base <;> rfl

theorem entityLookup_some_cases {s e : List Nat} (h : entityLookup s = some e) :
    (s = [38] ∧ e = [38, 97, 109, 112, 59]) ∨ (s = [60] ∧ e = [38, 108, 116, 59]) ∨
      (s = [62] ∧ e = [38, 103, 116, 59]) ∨ (s = [34] ∧ e = [38, 113, 117, 111, 116, 59]) ∨
      (s = [39] ∧ e = [38, 97, 112, 111, 115, 59]) := by
  unfold entityLookup at h
  split_ifs at h <;> simp_all

theorem mapLookup_some_cases {s r : List Nat} (h : mapLookup s = some r) :
    (s = [160] ∧ r = [32]) ∨ (s = [173] ∧ r = [45]) := by
  unfold mapLookup at h
  split_ifs at h <;> simp_all

theorem entityLookup_eq_none {c : Nat} (h38 : c ≠ 38) (h60 : c ≠ 60) (h62 : c ≠ 62)
    (h34 : c ≠ 34) (h39 : c ≠ 39) : entityLookup [c] = none := by
  simp [entityLookup, h38, h60, h62, h34, h39]

theorem mapLookup_eq_none {c : Nat} (h1 : c ≠ 160) (h2 : c ≠ 173) : mapLookup [c] = none := by
  simp [mapLookup, h1, h2]

theorem mem_entityLookup_inert {s e : List Nat} (h : entityLookup s = some e) :
    ∀ x ∈ e, inertChar x = true := by
  intro x hx
  rcases entityLookup_some_cases h with ⟨_, rfl⟩ | ⟨_, rfl⟩ | ⟨_, rfl⟩ | ⟨_, rfl⟩ | ⟨_, rfl⟩ <;>
    (fin_cases hx <;> decide)

theorem mem_escapeCharacter {o : Options} {c x : Nat} (hx : x ∈ escapeCharacter o c) :
    inertChar x = true ∨ (o.forceEscape = false ∧ x = c ∧ (c = 160 ∨ c = 173)) := by
  unfold escapeCharacter at hx
  split at hx
  case h_1 repl hrepl =>
    rcases mapLookup_some_cases hrepl with ⟨hc, hr⟩ | ⟨hc, hr⟩ <;> subst hr <;>
      simp only [List.cons.injEq, and_true] at hc <;> subst hc
    · split at hx
      · simp only [entityLookup, List.headD] at hx
        norm_num at hx
        exact Or.inl (mem_numericEntity_inert _ _ _ hx)
      · simp only [List.mem_singleton] at hx
        subst hx
        rename_i hfe
        exact Or.inr ⟨by simpa using hfe, rfl, Or.inl rfl⟩
    · split at hx
      · simp only [entityLookup, List.headD] at hx
        norm_num at hx
        exact Or.inl (mem_numericEntity_inert _ _ _ hx)
      · simp only [List.mem_singleton] at hx
        subst hx
        rename_i hfe
        exact Or.inr ⟨by simpa using hfe, rfl, Or.inr rfl⟩
  case h_2 hnone =>
    split at hx
    case h_1 e he => exact Or.inl (mem_entityLookup_inert he _ hx)
    case h_2 => exact Or.inl (mem_numericEntity_inert _ _ _ hx)

theorem mem_escapeCharacter_force {o : Options} {c x : Nat} (hf : o.forceEscape = true)
    (hx : x ∈ escapeCharacter o c) : inertChar x = true := by
  rcases mem_escapeCharacter hx with h | ⟨h, _⟩
  · exact h
  · rw [hf] at h; cases h

theorem inertChar_spec {x : Nat} (h : inertChar x = true) :
    x = 38 ∨ x = 35 ∨ x = 59 ∨ (48 ≤ x ∧ x ≤ 57) ∨ (65 ≤ x ∧ x ≤ 90) ∨ (97 ≤ x ∧ x ≤ 122) := by
  simp only [inertChar, isAlnum, Bool.or_eq_true, beq_iff_eq, Bool.and_eq_true,
    decide_eq_true_eq] at h
  omega

theorem inertChar_not_special {x : Nat} (h : inertChar x = true) :
    x ≠ 0 ∧ x ≠ 34 ∧ x ≠ 39 ∧ x ≠ 60 ∧ x ≠ 160 ∧ x ≠ 173 ∧ x < 128 := by
  have := inertChar_spec h
  omega

theorem inertChar_ranges_false {x : Nat} (h : inertChar x = true) :
    inControl x = false ∧ (x == 160) = false ∧ ∀ hi, inNonAscii hi x = false := by
  have hs := inertChar_spec h
  refine ⟨?_, ?_, ?_⟩
  · simp only [inControl, Bool.or_eq_false_iff, beq_eq_false_iff_ne, Bool.and_eq_false_iff]
    constructor
    · constructor <;> [skip; omega]
      simp only [decide_eq_false_iff_not]
      omega
    · left
      simp only [decide_eq_false_iff_not]
      omega
  · simp only [beq_eq_false_iff_ne]
    omega
  · intro hi
    simp only [inNonAscii, Bool.and_eq_false_iff, decide_eq_false_iff_not]
    left
    omega

theorem inertChar_unquoted_false {x : Nat} (h : inertChar x = true) :
    unquotedMandatory x = false := by
  have := inertChar_spec h
  simp only [unquotedMandatory, Bool.or_eq_false_iff, beq_eq_false_iff_ne]
  omega

theorem wordOrSpace_spec {x : Nat} (h : isWordOrSpace x = true) :
    x = 95 ∨ x = 32 ∨ (48 ≤ x ∧ x ≤ 57) ∨ (65 ≤ x ∧ x ≤ 90) ∨ (97 ≤ x ∧ x ≤ 122) := by
  simp only [isWordOrSpace, isAlnum, Bool.or_eq_true, beq_iff_eq, Bool.and_eq_true,
    decide_eq_true_eq] at h
  omega

/-! ### Facts about the replacement passes -/

theorem mem_replaceChars {p : Nat → Bool} {f : Nat → List Nat} {s : List Nat} {x : Nat}
    (hx : x ∈ replaceChars p f s) :
    (x ∈ s ∧ p x = false) ∨ ∃ c, c ∈ s ∧ p c = true ∧ x ∈ f c := by
  induction s with
  | nil => simp [replaceChars] at hx
  | cons c rest ih =>
    simp only [replaceChars] at hx
    rcases List.mem_append.mp hx with h | h
    · cases hpc : p c with
      | true =>
        rw [if_pos hpc] at h
        exact Or.inr ⟨c, List.mem_cons_self c rest, hpc, h⟩
      | false =>
        rw [if_neg (by simp [hpc])] at h
        simp only [List.mem_singleton] at h
        subst h
        exact Or.inl ⟨List.mem_cons_self x rest, hpc⟩
    · rcases ih h with ⟨hmem, hp⟩ | ⟨d, hd, hp, hf⟩
      · exact Or.inl ⟨List.mem_cons_of_mem c hmem, hp⟩
      · exact Or.inr ⟨d, List.mem_cons_of_mem c hd, hp, hf⟩

theorem replaceChars_eq_self {p : Nat → Bool} {f : Nat → List Nat} {s : List Nat}
    (h : ∀ c ∈ s, p c = false) : replaceChars p f s = s := by
  induction s with
  | nil => rfl
  | cons c rest ih =>
    have hc := h c (List.mem_cons_self c rest)
    simp only [replaceChars, if_neg (by simp [hc] : ¬p c = true)]
    simp [ih (fun d hd => h d (List.mem_cons_of_mem c hd))]

theorem replaceChars_singleton (p : Nat → Bool) (f : Nat → List Nat) (c : Nat) :
    replaceChars p f [c] = if p c then f c else [c] := by
  simp only [replaceChars]
  split <;> simp

theorem mem_escapeAmpersand {o : Options} {s : List Nat} {x : Nat}
    (hx : x ∈ escapeAmpersand o s) : x ∈ s ∨ x ∈ escapeCharacter o 38 := by
  induction s with
  | nil => simp [escapeAmpersand] at hx
  | cons c rest ih =>
    cases rest with
    | nil =>
      simp only [escapeAmpersand, List.mem_singleton] at hx
      subst hx
      exact Or.inl (List.mem_cons_self x [])
    | cons d rest2 =>
      simp only [escapeAmpersand] at hx
      split at hx
      · rcases List.mem_append.mp hx with h | h
        · exact Or.inr h
        · rcases ih h with h2 | h2
          · exact Or.inl (List.mem_cons_of_mem c h2)
          · exact Or.inr h2
      · rcases List.mem_cons.mp hx with rfl | h
        · exact Or.inl (List.mem_cons_self x (d :: rest2))
        · rcases ih h with h2 | h2
          · exact Or.inl (List.mem_cons_of_mem c h2)
          · exact Or.inr h2

theorem mem_replaceNull {s : List Nat} {x : Nat} (hx : x ∈ replaceNull s) :
    x ≠ 0 ∧ (x ∈ s ∨ x = 0xfffd) := by
  unfold replaceNull at hx
  rcases List.mem_map.mp hx with ⟨c, hc, rfl⟩
  by_cases h0 : c = 0
  · simp [h0]
  · simp only [if_neg (by simp [h0] : ¬(c == 0) = true)]
    exact ⟨h0, Or.inl hc⟩

theorem replaceNull_singleton {c : Nat} (h0 : c ≠ 0) : replaceNull [c] = [c] := by
  simp [replaceNull, h0]

theorem mem_optPass {cond : Prop} [Decidable cond] {p : Nat → Bool} {o : Options}
    {t : List Nat} {x : Nat}
    (hx : x ∈ if cond then replaceChars p (escapeCharacter o) t else t) :
    x ∈ t ∨ ∃ c, x ∈ escapeCharacter o c := by
  split at hx
  · rcases mem_replaceChars hx with ⟨h, _⟩ | ⟨c, _, _, hf⟩
    · exact Or.inl h
    · exact Or.inr ⟨c, hf⟩
  · exact Or.inl hx

theorem mem_escapeRangesPass {hi : Nat} {o : Options} {s : List Nat} {x : Nat}
    (hx : x ∈ escapeRangesPass hi o s) : x ∈ s ∨ ∃ c, x ∈ escapeCharacter o c := by
  simp only [escapeRangesPass] at hx
  rcases mem_optPass hx with h2 | h2
  · rcases mem_optPass h2 with h1 | h1
    · rcases mem_optPass h1 with h0 | h0
      · exact Or.inl h0
      · exact Or.inr h0
    · exact Or.inr h1
  · exact Or.inr h2

theorem escapeRangesPass_eq_self {hi : Nat} {o : Options} {s : List Nat}
    (h : ∀ x ∈ s, inControl x = false ∧ (x == 160) = false ∧ inNonAscii hi x = false) :
    escapeRangesPass hi o s = s := by
  have h1 : replaceChars inControl (escapeCharacter o) s = s :=
    replaceChars_eq_self (fun c hc => (h c hc).1)
  have h2 : replaceChars (fun c => c == 0xa0) (escapeCharacter o) s = s :=
    replaceChars_eq_self (fun c hc => (h c hc).2.1)
  have h3 : replaceChars (inNonAscii hi) (escapeCharacter o) s = s :=
    replaceChars_eq_self (fun c hc => (h c hc).2.2)
  simp only [escapeRangesPass]
  split_ifs <;> simp [h1, h2, h3]

theorem escapeRangesPass_inert {hi : Nat} {o : Options} {s : List Nat}
    (h : ∀ x ∈ s, inertChar x = true) : escapeRangesPass hi o s = s := by
  refine escapeRangesPass_eq_self (fun x hx => ?_)
  have hr := inertChar_ranges_false (h x hx)
  exact ⟨hr.1, hr.2.1, hr.2.2 hi⟩

theorem escapeRangesPass_escCh {hi : Nat} {o : Options} {d : Nat}
    (hf : o.forceEscape = true) :
    escapeRangesPass hi o (escapeCharacter o d) = escapeCharacter o d :=
  escapeRangesPass_inert (fun _ hx => mem_escapeCharacter_force hf hx)

theorem mem_escapeGeneric {hi : Nat} {p : Nat → Bool} {o : Options} {v : List Nat} {x : Nat}
    (hx : x ∈ escapeGeneric hi p o v) :
    (isSafe v = true ∧ x ∈ v) ∨ (x ∈ replaceNull v ∧ p x = false) ∨
      ∃ c, x ∈ escapeCharacter o c := by
  unfold escapeGeneric at hx
  split at hx
  · exact Or.inl ⟨by assumption, hx⟩
  · rcases mem_escapeRangesPass hx with h | h
    · rcases mem_replaceChars h with ⟨h1, hp⟩ | ⟨c, _, _, hf⟩
      · rcases mem_escapeAmpersand h1 with h2 | h2
        · exact Or.inr (Or.inl ⟨h2, hp⟩)
        · exact Or.inr (Or.inr ⟨38, h2⟩)
      · exact Or.inr (Or.inr ⟨c, hf⟩)
    · exact Or.inr (Or.inr h)

theorem escapeAmpersand_singleton (o : Options) (c : Nat) : escapeAmpersand o [c] = [c] := rfl

theorem escapeGeneric_singleton {hi : Nat} {p : Nat → Bool} {o : Options} {c : Nat}
    (hws : isWordOrSpace c = false) (h0 : c ≠ 0) :
    escapeGeneric hi p o [c] =
      escapeRangesPass hi o (if p c then escapeCharacter o c else [c]) := by
  have hsafe : ¬isSafe [c] = true := by simp [isSafe, hws]
  unfold escapeGeneric
  rw [if_neg hsafe, replaceNull_singleton h0, escapeAmpersand_singleton,
    replaceChars_singleton]

theorem replaceChars_escCh_nbsp {o : Options} {d : Nat} (hf : o.forceEscape = true) :
    replaceChars (fun c => c == 0xa0) (escapeCharacter o) (escapeCharacter o d) =
      escapeCharacter o d :=
  replaceChars_eq_self
    (fun _ hx => (inertChar_ranges_false (mem_escapeCharacter_force hf hx)).2.1)

theorem replaceChars_escCh_nonAscii {hi : Nat} {o : Options} {d : Nat}
    (hf : o.forceEscape = true) :
    replaceChars (inNonAscii hi) (escapeCharacter o) (escapeCharacter o d) =
      escapeCharacter o d :=
  replaceChars_eq_self
    (fun _ hx => (inertChar_ranges_false (mem_escapeCharacter_force hf hx)).2.2 hi)

theorem escapeRangesPass_singleton {hi : Nat} {o : Options} {c : Nat}
    (hf : o.forceEscape = true) :
    escapeRangesPass hi o [c] =
      if EscapeRange.control ∈ o.escapeRanges ∧ inControl c = true then escapeCharacter o c
      else if EscapeRange.nonbreakingSpace ∈ o.escapeRanges ∧ c = 160 then escapeCharacter o c
      else if EscapeRange.nonAscii ∈ o.escapeRanges ∧ inNonAscii hi c = true then
        escapeCharacter o c
      else [c] := by
  by_cases hc2 : c = 160
  · subst hc2
    by_cases hm1 : EscapeRange.control ∈ o.escapeRanges <;>
      by_cases hm2 : EscapeRange.nonbreakingSpace ∈ o.escapeRanges <;>
        by_cases hm3 : EscapeRange.nonAscii ∈ o.escapeRanges <;>
          cases hc3 : inNonAscii hi 160 <;>
            simp [escapeRangesPass, replaceChars_singleton, inControl, hm1, hm2, hm3, hc3,
              replaceChars_escCh_nbsp hf, replaceChars_escCh_nonAscii hf]
  · by_cases hm1 : EscapeRange.control ∈ o.escapeRanges <;>
      by_cases hm2 : EscapeRange.nonbreakingSpace ∈ o.escapeRanges <;>
        by_cases hm3 : EscapeRange.nonAscii ∈ o.escapeRanges <;>
          cases hc1 : inControl c <;>
            cases hc3 : inNonAscii hi c <;>
              simp [escapeRangesPass, replaceChars_singleton, hm1, hm2, hm3, hc1, hc2, hc3,
                replaceChars_escCh_nbsp hf, replaceChars_escCh_nonAscii hf]

theorem escapeGeneric_singleton_mand {hi : Nat} {p : Nat → Bool} {o : Options} {c : Nat}
    (hf : o.forceEscape = true) (hws : isWordOrSpace c = false) (h0 : c ≠ 0)
    (hp : p c = true) : escapeGeneric hi p o [c] = escapeCharacter o c := by
  rw [escapeGeneric_singleton hws h0, if_pos hp, escapeRangesPass_escCh hf]

theorem escapeGeneric_singleton_raw {hi : Nat} {p : Nat → Bool} {o : Options} {c : Nat}
    (hws : isWordOrSpace c = false) (h0 : c ≠ 0) (hp : p c = false) :
    escapeGeneric hi p o [c] = escapeRangesPass hi o [c] := by
  rw [escapeGeneric_singleton hws h0, if_neg (by simp [hp])]

/-! ### Evaluation of the per-character routine -/

theorem escCh_38 (o : Options) : escapeCharacter o 38 = [38, 97, 109, 112, 59] := by
  simp [escapeCharacter, mapLookup, entityLookup]

theorem escCh_160 {o : Options} (hf : o.forceEscape = true) :
    escapeCharacter o 160 = numericEntity o.escapeBase 32 := by
  simp [escapeCharacter, mapLookup, entityLookup, hf]

theorem escCh_173 {o : Options} (hf : o.forceEscape = true) :
    escapeCharacter o 173 = numericEntity o.escapeBase 45 := by
  simp [escapeCharacter, mapLookup, entityLookup, hf]

theorem escCh_numeric {o : Options} {c : Nat} (h160 : c ≠ 160) (h173 : c ≠ 173)
    (h38 : c ≠ 38) (h60 : c ≠ 60) (h62 : c ≠ 62) (h34 : c ≠ 34) (h39 : c ≠ 39) :
    escapeCharacter o c = numericEntity o.escapeBase c := by
  simp [escapeCharacter, mapLookup_eq_none h160 h173,
    entityLookup_eq_none h38 h60 h62 h34 h39]

theorem escCh_head {o : Options} (hf : o.forceEscape = true) {c : Nat}
    (h38 : c ≠ 38) (h60 : c ≠ 60) (h62 : c ≠ 62) (h34 : c ≠ 34) (h39 : c ≠ 39) :
    (escapeCharacter o c).head? = some 38 := by
  by_cases h160 : c = 160
  · subst h160
    rw [escCh_160 hf]
    exact numericEntity_head _ _
  · by_cases h173 : c = 173
    · subst h173
      rw [escCh_173 hf]
      exact numericEntity_head _ _
    · rw [escCh_numeric h160 h173 h38 h60 h62 h34 h39]
      exact numericEntity_head _ _

theorem not_mem_escCh {o : Options} (hf : o.forceEscape = true) {c : Nat}
    (hc : c ≤ 31 ∨ c = 127 ∨ 128 ≤ c) : c ∉ escapeCharacter o c := by
  intro hmem
  have := inertChar_spec (mem_escapeCharacter_force hf hmem)
  omega

theorem escapeCharacter_ne_nil (o : Options) (c : Nat) : escapeCharacter o c ≠ [] := by
  unfold escapeCharacter
  split
  · split
    · split
      · rename_i e he
        rcases entityLookup_some_cases he with
          ⟨_, rfl⟩ | ⟨_, rfl⟩ | ⟨_, rfl⟩ | ⟨_, rfl⟩ | ⟨_, rfl⟩ <;> simp
      · exact numericEntity_ne_nil _ _
    · simp
  · split
    · rename_i e he
      rcases entityLookup_some_cases he with
        ⟨_, rfl⟩ | ⟨_, rfl⟩ | ⟨_, rfl⟩ | ⟨_, rfl⟩ | ⟨_, rfl⟩ <;> simp
    · exact numericEntity_ne_nil _ _

/-! ### Output character sets of the public operations -/

theorem escapeGeneric_target_free {hi : Nat} {o : Options} {v : List Nat} {t : Nat}
    (ht : t = 34 ∨ t = 39 ∨ t = 60) :
    (escapeGeneric hi (fun c => c == t) o v).all (fun c => !(c == t)) = true := by
  rw [List.all_eq_true]
  intro x hx
  suffices hxt : x ≠ t by simp [hxt]
  rcases mem_escapeGeneric hx with ⟨hs, hxv⟩ | ⟨_, hp⟩ | ⟨c, hesc⟩
  · unfold isSafe at hs
    have := wordOrSpace_spec (List.all_eq_true.mp hs x hxv)
    omega
  · simpa using hp
  · rcases mem_escapeCharacter hesc with hin | ⟨_, rfl, hc⟩
    · have := inertChar_not_special hin
      omega
    · omega

theorem escapeGeneric_zero_free {hi : Nat} {p : Nat → Bool} {o : Options} {v : List Nat} :
    (escapeGeneric hi p o v).all (fun c => !(c == 0)) = true := by
  rw [List.all_eq_true]
  intro x hx
  suffices hx0 : x ≠ 0 by simp [hx0]
  rcases mem_escapeGeneric hx with ⟨hs, hxv⟩ | ⟨hn, _⟩ | ⟨c, hesc⟩
  · unfold isSafe at hs
    have := wordOrSpace_spec (List.all_eq_true.mp hs x hxv)
    omega
  · exact (mem_replaceNull hn).1
  · rcases mem_escapeCharacter hesc with hin | ⟨_, rfl, hc⟩
    · exact (inertChar_not_special hin).1
    · omega

/-! ### Evaluation of the operations on single-character inputs -/

theorem escapeGeneric_singleton_defaults {hi : Nat} {p : Nat → Bool} {c : Nat}
    (hws : isWordOrSpace c = false) (h0 : c ≠ 0)
    (hrange : inControl c = true ∨ c = 160) :
    escapeGeneric hi p Options.defaults [c] = escapeCharacter Options.defaults c := by
  by_cases hp : p c = true
  · exact escapeGeneric_singleton_mand rfl hws h0 hp
  · rw [escapeGeneric_singleton_raw hws h0 (by simpa using hp),
      escapeRangesPass_singleton (rfl : Options.defaults.forceEscape = true)]
    rcases hrange with h | h
    · rw [if_pos ⟨by decide, h⟩]
    · have hic : inControl c = false := by subst h; decide
      rw [if_neg (by simp [hic]), if_pos ⟨by decide, h⟩]

theorem escapeGeneric_singleton_defaults_id {hi : Nat} {p : Nat → Bool} {c : Nat}
    (hws : isWordOrSpace c = false) (hp : p c = false) (hc : 161 ≤ c) :
    escapeGeneric hi p Options.defaults [c] = [c] := by
  have h0 : c ≠ 0 := by omega
  rw [escapeGeneric_singleton_raw hws h0 hp,
    escapeRangesPass_singleton (rfl : Options.defaults.forceEscape = true)]
  have n1 : ¬(EscapeRange.control ∈ Options.defaults.escapeRanges ∧ inControl c = true) := by
    rintro ⟨-, h⟩
    simp only [inControl, Bool.or_eq_true, beq_iff_eq, Bool.and_eq_true,
      decide_eq_true_eq] at h
    omega
  have n2 : ¬(EscapeRange.nonbreakingSpace ∈ Options.defaults.escapeRanges ∧ c = 160) := by
    rintro ⟨-, h⟩
    omega
  have n3 : ¬(EscapeRange.nonAscii ∈ Options.defaults.escapeRanges ∧
      inNonAscii hi c = true) := by
    rintro ⟨h, -⟩
    exact absurd h (by decide)
  rw [if_neg n1, if_neg n2, if_neg n3]

theorem escapeGeneric_singleton_nonAscii {hi : Nat} {p : Nat → Bool} {c : Nat}
    (hws : isWordOrSpace c = false) (hlo : 128 ≤ c) (hhi : c ≤ hi) :
    escapeGeneric hi p optionsNonAscii [c] = escapeCharacter optionsNonAscii c := by
  have h0 : c ≠ 0 := by omega
  by_cases hp : p c = true
  · exact escapeGeneric_singleton_mand rfl hws h0 hp
  · rw [escapeGeneric_singleton_raw hws h0 (by simpa using hp),
      escapeRangesPass_singleton (rfl : optionsNonAscii.forceEscape = true)]
    by_cases h1 : inControl c = true
    · rw [if_pos ⟨by decide, h1⟩]
    · by_cases h2 : c = 160
      · rw [if_neg (by simp [h1]), if_pos ⟨by decide, h2⟩]
      · rw [if_neg (by simp [h1]), if_neg (by simp [h2]),
          if_pos ⟨by decide, by simp only [inNonAscii, Bool.and_eq_true, decide_eq_true_eq]; omega⟩]

theorem escapeRangesPass_fixed {hi : Nat} {o : Options} {c : Nat}
    (hesc : escapeCharacter o c = [c]) : escapeRangesPass hi o [c] = [c] := by
  have hrc : ∀ p : Nat → Bool, replaceChars p (escapeCharacter o) [c] = [c] := by
    intro p
    rw [replaceChars_singleton]
    split
    · exact hesc
    · rfl
  simp only [escapeRangesPass]
  split_ifs <;> simp [hrc]

/-! ### Quote-preservation machinery -/

theorem filter_isQuote_escCh (o : Options) (c : Nat) :
    (escapeCharacter o c).filter isQuote = [] := by
  rw [List.filter_eq_nil_iff]
  intro x hx
  rcases mem_escapeCharacter hx with h | ⟨_, rfl, hc⟩
  · have := inertChar_not_special h
    simp only [isQuote, Bool.or_eq_true, beq_iff_eq]
    omega
  · rcases hc with rfl | rfl <;> decide

theorem filter_replaceChars {p : Nat → Bool} {f : Nat → List Nat} {q : Nat → Bool}
    (hq : ∀ c, p c = true → (f c).filter q = [] ∧ q c = false) (s : List Nat) :
    (replaceChars p f s).filter q = s.filter q := by
  induction s with
  | nil => rfl
  | cons c rest ih =>
    simp only [replaceChars, List.filter_append]
    cases hpc : p c with
    | true => simp [List.filter_cons, (hq c hpc).1, (hq c hpc).2, ih]
    | false => by_cases hqc : q c = true <;> simp [List.filter_cons, hqc, ih]

theorem filter_escapeAmpersand {o : Options} {q : Nat → Bool}
    (hamp : (escapeCharacter o 38).filter q = []) (hq38 : q 38 = false) (s : List Nat) :
    (escapeAmpersand o s).filter q = s.filter q := by
  induction s with
  | nil => rfl
  | cons c rest ih =>
    cases rest with
    | nil => rfl
    | cons d rest2 =>
      simp only [escapeAmpersand]
      split
      · rename_i hcd
        have hc : c = 38 := by
          simp only [Bool.and_eq_true, beq_iff_eq] at hcd
          exact hcd.1
        subst hc
        rw [List.filter_append, hamp]
        simp [List.filter_cons, hq38, ih]
      · by_cases hqc : q c = true <;> simp [List.filter_cons, hqc, ih]

theorem filter_replaceNull {q : Nat → Bool} (hq0 : q 0 = false) (hqf : q 0xfffd = false)
    (s : List Nat) : (replaceNull s).filter q = s.filter q := by
  induction s with
  | nil => rfl
  | cons c rest ih =>
    have hcons : replaceNull (c :: rest) = (if c = 0 then 0xfffd else c) :: replaceNull rest := by
      simp [replaceNull]
    rw [hcons]
    by_cases h0 : c = 0
    · subst h0
      simp [List.filter_cons, hq0, hqf, ih]
    · rw [if_neg h0]
      by_cases hqc : q c = true <;> simp [List.filter_cons, hqc, ih]

theorem filter_escapeRangesPass {hi : Nat} {o : Options} {q : Nat → Bool}
    (hQ : ∀ c, (escapeCharacter o c).filter q = [])
    (h1 : ∀ c, inControl c = true → q c = false) (h2 : q 160 = false)
    (h3 : ∀ c, inNonAscii hi c = true → q c = false) (s : List Nat) :
    (escapeRangesPass hi o s).filter q = s.filter q := by
  have hqC : ∀ c, inControl c = true → (escapeCharacter o c).filter q = [] ∧ q c = false :=
    fun c hc => ⟨hQ c, h1 c hc⟩
  have hqN : ∀ c : Nat, (c == 0xa0) = true →
      (escapeCharacter o c).filter q = [] ∧ q c = false := by
    intro c hc
    have : c = 160 := by simpa using hc
    subst this
    exact ⟨hQ 160, h2⟩
  have hqA : ∀ c, inNonAscii hi c = true → (escapeCharacter o c).filter q = [] ∧ q c = false :=
    fun c hc => ⟨hQ c, h3 c hc⟩
  simp only [escapeRangesPass]
  split_ifs <;>
    simp only [filter_replaceChars hqC, filter_replaceChars hqN, filter_replaceChars hqA]

theorem escapeRangesPass_hi_irrelevant {o : Options}
    (h : EscapeRange.nonAscii ∉ o.escapeRanges) (hi1 hi2 : Nat) (s : List Nat) :
    escapeRangesPass hi1 o s = escapeRangesPass hi2 o s := by
  simp only [escapeRangesPass, if_neg h]

/-! ### The claims -/

/-- C1: the mandatory target characters never appear unescaped in the
output.  This holds for the data and the two quoted-attribute contexts
(first three conjuncts), but the unquoted-attribute context violates it:
the fast path accepts spaces, so `escapeUnquotedAttribute` on the input
"a b" returns it unchanged with a raw space (fourth conjunct), while the
same spaces are escaped to `&#x20` once the fast path misses (fifth
conjunct, input "a b<"). -/
theorem claim_C1_mandatory_targets :
    (∀ (o : Options) (v : List Nat),
      (Escaper.escapeData o v).all (fun c => !(c == 60)) = true) ∧
    (∀ (o : Options) (v : List Nat),
      (Escaper.escapeDoubleQuotedAttribute o v).all (fun c => !(c == 34)) = true) ∧
    (∀ (o : Options) (v : List Nat),
      (Escaper.escapeSingleQuotedAttribute o v).all (fun c => !(c == 39)) = true) ∧
    Escaper.escapeUnquotedAttribute Options.defaults [97, 32, 98] = [97, 32, 98] ∧
    Escaper.escapeUnquotedAttribute Options.defaults [97, 32, 98, 60] =
      [97, 38, 35, 120, 50, 48, 98, 38, 108, 116, 59] := by
  refine ⟨fun o v => escapeGeneric_target_free (Or.inr (Or.inr rfl)),
    fun o v => escapeGeneric_target_free (Or.inl rfl),
    fun o v => escapeGeneric_target_free (Or.inr (Or.inl rfl)),
    by decide, by decide⟩

/-- C2 (counterexample): `escapeData` on the NUL character under default
options returns the raw replacement character U+FFFD, not the escape form
`&#xfffd` of U+FFFD that the claim asserts. -/
theorem claim_C2_counterexample :
    Escaper.escapeData Options.defaults [0] = [65533] ∧
    (Escaper.escapeData Options.defaults [0] ==
      [38, 35, 120, 102, 102, 102, 100]) = false := by
  decide

/-- C2 (amended): NUL never appears in the output of any operation, and
every NUL is replaced by U+FFFD before any other processing; the
replacement character is then treated like any other character, so under
default options `escapeData` of NUL is the raw U+FFFD character. -/
theorem claim_C2_nul_replaced :
    (∀ (o : Options) (v : List Nat),
      (Escaper.escapeData o v).all (fun c => !(c == 0)) = true) ∧
    (∀ (o : Options) (v : List Nat),
      (Escaper.escapeDoubleQuotedAttribute o v).all (fun c => !(c == 0)) = true) ∧
    (∀ (o : Options) (v : List Nat),
      (Escaper.escapeSingleQuotedAttribute o v).all (fun c => !(c == 0)) = true) ∧
    (∀ (o : Options) (v : List Nat),
      (Escaper.escapeUnquotedAttribute o v).all (fun c => !(c == 0)) = true) ∧
    Escaper.escapeData Options.defaults [0] = [65533] := by
  refine ⟨fun o v => escapeGeneric_zero_free, fun o v => escapeGeneric_zero_free,
    fun o v => escapeGeneric_zero_free, fun o v => escapeGeneric_zero_free, by decide⟩

/-- C3: on strings of word characters and spaces every operation returns
the input unchanged, for every configuration (the fast path). -/
theorem claim_C3_fast_path (o : Options) (v : List Nat)
    (h : ∀ c ∈ v, isWordOrSpace c = true) :
    Escaper.escapeData o v = v ∧ Escaper.escapeDoubleQuotedAttribute o v = v ∧
      Escaper.escapeSingleQuotedAttribute o v = v ∧
      Escaper.escapeUnquotedAttribute o v = v := by
  have hs : isSafe v = true := List.all_eq_true.mpr h
  refine ⟨?_, ?_, ?_, ?_⟩ <;>
    simp [Escaper.escapeData, Escaper.escapeDoubleQuotedAttribute,
      Escaper.escapeSingleQuotedAttribute, Escaper.escapeUnquotedAttribute,
      escapeGeneric, hs]

theorem claim_C3_fast_path_witness :
    Escaper.escapeData Options.defaults [72, 105, 32, 119, 111, 114, 108, 100, 95, 49] =
      [72, 105, 32, 119, 111, 114, 108, 100, 95, 49] :=
  (claim_C3_fast_path Options.defaults _ (by decide)).1

/-- C4: an ampersand immediately followed by an ASCII letter or digit is
escaped (to `&amp;`) by the ampersand pass, one at end-of-string or
followed by anything else is kept; on the spec's example the pipeline
produces exactly the documented output. -/
theorem claim_C4_ampersand :
    (∀ (o : Options) (d : Nat) (rest : List Nat), isAlnum d = true →
      escapeAmpersand o (38 :: d :: rest) =
        [38, 97, 109, 112, 59] ++ escapeAmpersand o (d :: rest)) ∧
    (∀ (o : Options) (d : Nat) (rest : List Nat), isAlnum d = false →
      escapeAmpersand o (38 :: d :: rest) = 38 :: escapeAmpersand o (d :: rest)) ∧
    (∀ o : Options, escapeAmpersand o [38] = [38]) ∧
    Escaper.escapeData Options.defaults
      [60, 32, 65, 98, 98, 111, 116, 116, 32, 38, 32, 67, 111, 115, 116, 101, 108, 108,
        111, 32, 38, 109, 101, 59, 32, 34, 111, 110, 32, 102, 105, 114, 115, 116, 34] =
      [38, 108, 116, 59, 32, 65, 98, 98, 111, 116, 116, 32, 38, 32, 67, 111, 115, 116,
        101, 108, 108, 111, 32, 38, 97, 109, 112, 59, 109, 101, 59, 32, 34, 111, 110,
        32, 102, 105, 114, 115, 116, 34] := by
  refine ⟨?_, ?_, ?_, ?_⟩
  · intro o d rest h
    simp [escapeAmpersand, h, escCh_38]
  · intro o d rest h
    simp [escapeAmpersand, h]
  · intro o
    rfl
  · decide

theorem claim_C4_ampersand_witness :
    escapeAmpersand Options.defaults (38 :: 109 :: []) =
      [38, 97, 109, 112, 59] ++ escapeAmpersand Options.defaults [109] ∧
    escapeAmpersand Options.defaults (38 :: 32 :: []) =
      38 :: escapeAmpersand Options.defaults [32] :=
  ⟨claim_C4_ampersand.1 Options.defaults 109 [] (by decide),
    claim_C4_ampersand.2.1 Options.defaults 32 [] (by decide)⟩

/-- C5 (counterexample): two failures of the claim as stated.  U+0000 lies
in the claimed control range but under default options `escapeData` turns
it into the raw character U+FFFD rather than an escape; and with
`non-ascii` enabled the map-variant escaper leaves U+A000, a character of
U+0080 through U+FFFF, completely unescaped (its ceiling is U+9999). -/
theorem claim_C5_counterexample :
    Escaper.escapeData Options.defaults [0] = [65533] ∧
    Escaper.escapeData optionsNonAscii [40960] = [40960] := by
  decide

/-- C5 (amended): with default options every character of U+0001 to
U+001F, U+007F, U+0080 to U+009F and U+00A0 is escaped by all four
operations (the output is the per-character escape, which starts with the
ampersand and no longer contains the character), every character of
U+00A1 to U+FFFF passes through unchanged, and U+0000 becomes raw U+FFFD;
with `non-ascii` enabled the map variant escapes exactly up to its
ceiling U+9999, while the replacements variant covers all of U+0080 to
U+FFFF. -/
theorem claim_C5_ranges :
    (∀ c : Nat, (1 ≤ c ∧ c ≤ 31) ∨ c = 127 ∨ (128 ≤ c ∧ c ≤ 160) →
      (Escaper.escapeData Options.defaults [c] = escapeCharacter Options.defaults c ∧
        Escaper.escapeDoubleQuotedAttribute Options.defaults [c] =
          escapeCharacter Options.defaults c ∧
        Escaper.escapeSingleQuotedAttribute Options.defaults [c] =
          escapeCharacter Options.defaults c ∧
        Escaper.escapeUnquotedAttribute Options.defaults [c] =
          escapeCharacter Options.defaults c) ∧
      (escapeCharacter Options.defaults c).head? = some 38 ∧
      c ∉ escapeCharacter Options.defaults c) ∧
    (∀ c : Nat, 161 ≤ c ∧ c ≤ 65535 →
      Escaper.escapeData Options.defaults [c] = [c] ∧
      Escaper.escapeDoubleQuotedAttribute Options.defaults [c] = [c] ∧
      Escaper.escapeSingleQuotedAttribute Options.defaults [c] = [c] ∧
      Escaper.escapeUnquotedAttribute Options.defaults [c] = [c]) ∧
    (∀ c : Nat, 128 ≤ c ∧ c ≤ 39321 →
      (Escaper.escapeData optionsNonAscii [c] = escapeCharacter optionsNonAscii c ∧
        Escaper.escapeDoubleQuotedAttribute optionsNonAscii [c] =
          escapeCharacter optionsNonAscii c ∧
        Escaper.escapeSingleQuotedAttribute optionsNonAscii [c] =
          escapeCharacter optionsNonAscii c ∧
        Escaper.escapeUnquotedAttribute optionsNonAscii [c] =
          escapeCharacter optionsNonAscii c) ∧
      (escapeCharacter optionsNonAscii c).head? = some 38 ∧
      c ∉ escapeCharacter optionsNonAscii c) ∧
    (∀ c : Nat, 128 ≤ c ∧ c ≤ 65535 →
      (EntitiesEscaper.escapeData optionsNonAscii [c] = escapeCharacter optionsNonAscii c ∧
        EntitiesEscaper.escapeDoubleQuotedAttribute optionsNonAscii [c] =
          escapeCharacter optionsNonAscii c ∧
        EntitiesEscaper.escapeSingleQuotedAttribute optionsNonAscii [c] =
          escapeCharacter optionsNonAscii c ∧
        EntitiesEscaper.escapeUnquotedAttribute optionsNonAscii [c] =
          escapeCharacter optionsNonAscii c) ∧
      (escapeCharacter optionsNonAscii c).head? = some 38 ∧
      c ∉ escapeCharacter optionsNonAscii c) := by
  refine ⟨?_, ?_, ?_, ?_⟩
  · intro c hc
    have hws : isWordOrSpace c = false := by
      cases h : isWordOrSpace c with
      | false => rfl
      | true => have := wordOrSpace_spec h; omega
    have h0 : c ≠ 0 := by omega
    have hrange : inControl c = true ∨ c = 160 := by
      by_cases h160 : c = 160
      · exact Or.inr h160
      · left
        simp only [inControl, Bool.or_eq_true, beq_iff_eq, Bool.and_eq_true,
          decide_eq_true_eq]
        omega
    exact ⟨⟨escapeGeneric_singleton_defaults hws h0 hrange,
        escapeGeneric_singleton_defaults hws h0 hrange,
        escapeGeneric_singleton_defaults hws h0 hrange,
        escapeGeneric_singleton_defaults hws h0 hrange⟩,
      escCh_head rfl (by omega) (by omega) (by omega) (by omega) (by omega),
      not_mem_escCh rfl (by omega)⟩
  · intro c hc
    have hws : isWordOrSpace c = false := by
      cases h : isWordOrSpace c with
      | false => rfl
      | true => have := wordOrSpace_spec h; omega
    refine ⟨?_, ?_, ?_, ?_⟩
    · exact escapeGeneric_singleton_defaults_id hws
        (by simp only [beq_eq_false_iff_ne]; omega) hc.1
    · exact escapeGeneric_singleton_defaults_id hws
        (by simp only [beq_eq_false_iff_ne]; omega) hc.1
    · exact escapeGeneric_singleton_defaults_id hws
        (by simp only [beq_eq_false_iff_ne]; omega) hc.1
    · exact escapeGeneric_singleton_defaults_id hws
        (by simp only [unquotedMandatory, Bool.or_eq_false_iff, beq_eq_false_iff_ne]; omega)
        hc.1
  · intro c hc
    have hws : isWordOrSpace c = false := by
      cases h : isWordOrSpace c with
      | false => rfl
      | true => have := wordOrSpace_spec h; omega
    exact ⟨⟨escapeGeneric_singleton_nonAscii hws hc.1 (by omega),
        escapeGeneric_singleton_nonAscii hws hc.1 (by omega),
        escapeGeneric_singleton_nonAscii hws hc.1 (by omega),
        escapeGeneric_singleton_nonAscii hws hc.1 (by omega)⟩,
      escCh_head rfl (by omega) (by omega) (by omega) (by omega) (by omega),
      not_mem_escCh rfl (by omega)⟩
  · intro c hc
    have hws : isWordOrSpace c = false := by
      cases h : isWordOrSpace c with
      | false => rfl
      | true => have := wordOrSpace_spec h; omega
    exact ⟨⟨escapeGeneric_singleton_nonAscii hws hc.1 (by omega),
        escapeGeneric_singleton_nonAscii hws hc.1 (by omega),
        escapeGeneric_singleton_nonAscii hws hc.1 (by omega),
        escapeGeneric_singleton_nonAscii hws hc.1 (by omega)⟩,
      escCh_head rfl (by omega) (by omega) (by omega) (by omega) (by omega),
      not_mem_escCh rfl (by omega)⟩

theorem claim_C5_ranges_witness :
    Escaper.escapeData Options.defaults [5] = escapeCharacter Options.defaults 5 ∧
    Escaper.escapeData Options.defaults [300] = [300] ∧
    Escaper.escapeData optionsNonAscii [300] = escapeCharacter optionsNonAscii 300 ∧
    EntitiesEscaper.escapeData optionsNonAscii [40960] =
      escapeCharacter optionsNonAscii 40960 :=
  ⟨(claim_C5_ranges.1 5 (by omega)).1.1,
    (claim_C5_ranges.2.1 300 (by omega)).1,
    (claim_C5_ranges.2.2.1 300 (by omega)).1.1,
    (claim_C5_ranges.2.2.2 40960 (by omega)).1.1⟩

/-- C6: no operation is idempotent.  Escaping the one-character string
with the less-than sign gives `&lt;` and escaping that output again gives
`&amp;lt;`; each of the four operations likewise changes its own output
again on the respective mandatory character. -/
theorem claim_C6_not_idempotent :
    Escaper.escapeData Options.defaults [60] = [38, 108, 116, 59] ∧
    Escaper.escapeData Options.defaults [38, 108, 116, 59] =
      [38, 97, 109, 112, 59, 108, 116, 59] ∧
    (Escaper.escapeData Options.defaults
        (Escaper.escapeData Options.defaults [60]) ==
      Escaper.escapeData Options.defaults [60]) = false ∧
    (Escaper.escapeDoubleQuotedAttribute Options.defaults
        (Escaper.escapeDoubleQuotedAttribute Options.defaults [34]) ==
      Escaper.escapeDoubleQuotedAttribute Options.defaults [34]) = false ∧
    (Escaper.escapeSingleQuotedAttribute Options.defaults
        (Escaper.escapeSingleQuotedAttribute Options.defaults [39]) ==
      Escaper.escapeSingleQuotedAttribute Options.defaults [39]) = false ∧
    (Escaper.escapeUnquotedAttribute Options.defaults
        (Escaper.escapeUnquotedAttribute Options.defaults [62]) ==
      Escaper.escapeUnquotedAttribute Options.defaults [62]) = false := by
  decide

/-- C7 (counterexample): on U+FFFD with the non-ascii range enabled the
two variant implementations disagree: the map variant (ceiling U+9999)
passes the character through while the replacements variant (ceiling
U+99999) escapes it to `&#xfffd`, so they are not behaviorally
equivalent. -/
theorem claim_C7_counterexample :
    Escaper.escapeData optionsNonAscii [65533] = [65533] ∧
    EntitiesEscaper.escapeData optionsNonAscii [65533] =
      [38, 35, 120, 102, 102, 102, 100] ∧
    (Escaper.escapeData optionsNonAscii [65533] ==
      EntitiesEscaper.escapeData optionsNonAscii [65533]) = false := by
  decide

/-- C7 (amended): the two variants agree on every input, every operation
and every configuration whose `escapeRanges` does not contain `non-ascii`;
they differ only in the ceiling of the non-ascii pass. -/
theorem claim_C7_variants_agree (o : Options)
    (h : EscapeRange.nonAscii ∉ o.escapeRanges) (v : List Nat) :
    Escaper.escapeData o v = EntitiesEscaper.escapeData o v ∧
    Escaper.escapeDoubleQuotedAttribute o v =
      EntitiesEscaper.escapeDoubleQuotedAttribute o v ∧
    Escaper.escapeSingleQuotedAttribute o v =
      EntitiesEscaper.escapeSingleQuotedAttribute o v ∧
    Escaper.escapeUnquotedAttribute o v = EntitiesEscaper.escapeUnquotedAttribute o v := by
  have key : ∀ p : Nat → Bool, escapeGeneric 0x9999 p o v = escapeGeneric 0x99999 p o v := by
    intro p
    unfold escapeGeneric
    by_cases hs : isSafe v = true
    · rw [if_pos hs, if_pos hs]
    · rw [if_neg hs, if_neg hs]
      exact escapeRangesPass_hi_irrelevant h _ _ _
  exact ⟨key _, key _, key _, key _⟩

theorem claim_C7_variants_agree_witness :
    Escaper.escapeData ⟨true, [EscapeRange.control], EscapeBase.base16⟩ [60, 160] =
      EntitiesEscaper.escapeData ⟨true, [EscapeRange.control], EscapeBase.base16⟩ [60, 160] :=
  (claim_C7_variants_agree _ (by decide) _).1

/-- C8: with `forceEscape: false` every character that has a Replacement
Table entry passes through all four operations unchanged (the
per-character routine returns it as is). -/
theorem claim_C8_force_escape_off (o : Options) (hf : o.forceEscape = false) (c : Nat)
    (hm : (mapLookup [c]).isSome = true) :
    escapeCharacter o c = [c] ∧
    Escaper.escapeData o [c] = [c] ∧
    Escaper.escapeDoubleQuotedAttribute o [c] = [c] ∧
    Escaper.escapeSingleQuotedAttribute o [c] = [c] ∧
    Escaper.escapeUnquotedAttribute o [c] = [c] := by
  have hc : c = 160 ∨ c = 173 := by
    rcases hs : mapLookup [c] with _ | r
    · rw [hs] at hm
      simp at hm
    · rcases mapLookup_some_cases hs with ⟨h, -⟩ | ⟨h, -⟩
      · left
        simpa using h
      · right
        simpa using h
  have hesc : escapeCharacter o c = [c] := by
    rcases hc with rfl | rfl <;> simp [escapeCharacter, mapLookup, hf]
  have hws : isWordOrSpace c = false := by
    rcases hc with rfl | rfl <;> decide
  have h0 : c ≠ 0 := by
    rcases hc with rfl | rfl <;> decide
  have key : ∀ (hi : Nat) (p : Nat → Bool), p c = false → escapeGeneric hi p o [c] = [c] := by
    intro hi p hp
    rw [escapeGeneric_singleton_raw hws h0 hp, escapeRangesPass_fixed hesc]
  refine ⟨hesc, key _ _ ?_, key _ _ ?_, key _ _ ?_, key _ _ ?_⟩ <;>
    rcases hc with rfl | rfl <;> decide

theorem claim_C8_force_escape_off_witness :
    Escaper.escapeData
        ⟨false, [EscapeRange.control, EscapeRange.nonbreakingSpace], EscapeBase.base16⟩
        [160] = [160] :=
  (claim_C8_force_escape_off _ rfl 160 (by decide)).2.1

/-- C9 (counterexample): U+00A0 has no Entity Table entry, yet with
`escapeBase: 10` the per-character routine emits `&#32` -- the decimal
reference of the substituted space -- and not `&#160`, the decimal
reference of the character's own code point claimed by the spec. -/
theorem claim_C9_counterexample :
    escapeCharacter
        ⟨true, [EscapeRange.control, EscapeRange.nonbreakingSpace], EscapeBase.base10⟩
        160 = [38, 35, 51, 50] ∧
    (escapeCharacter
        ⟨true, [EscapeRange.control, EscapeRange.nonbreakingSpace], EscapeBase.base10⟩
        160 == [38, 35] ++ natDigits10 160) = false := by
  decide

/-- C9 (amended): the base only affects characters without a named
entity: characters with an Entity Table entry are rendered identically
under base 10 and 16; characters with neither a Replacement nor an Entity
Table entry get `&#` plus their decimal code point under base 10 and
`&#x` plus their lowercase hexadecimal code point under base 16; and the
routine is total -- it always returns a non-empty escape text.
(Replacement-table characters, excluded here, are first substituted and
the numeric reference then encodes the substitute.) -/
theorem claim_C9_escape_base :
    (∀ (fe : Bool) (r : List EscapeRange) (c : Nat), (entityLookup [c]).isSome = true →
      escapeCharacter ⟨fe, r, EscapeBase.base10⟩ c =
        escapeCharacter ⟨fe, r, EscapeBase.base16⟩ c) ∧
    (∀ (fe : Bool) (r : List EscapeRange) (c : Nat),
      entityLookup [c] = none → mapLookup [c] = none →
      escapeCharacter ⟨fe, r, EscapeBase.base10⟩ c = [38, 35] ++ natDigits10 c ∧
      escapeCharacter ⟨fe, r, EscapeBase.base16⟩ c = [38, 35, 120] ++ natDigits16 c) ∧
    (∀ (o : Options) (c : Nat), escapeCharacter o c ≠ []) := by
  refine ⟨?_, ?_, fun o c => escapeCharacter_ne_nil o c⟩
  · intro fe r c h
    rcases he : entityLookup [c] with _ | e
    · rw [he] at h
      simp at h
    · rcases entityLookup_some_cases he with
        ⟨hc, -⟩ | ⟨hc, -⟩ | ⟨hc, -⟩ | ⟨hc, -⟩ | ⟨hc, -⟩ <;>
        simp only [List.cons.injEq, and_true] at hc <;> subst hc <;>
        simp [escapeCharacter, mapLookup, entityLookup]
  · intro fe r c he hm
    constructor <;> simp [escapeCharacter, hm, he, numericEntity]

theorem claim_C9_escape_base_witness :
    escapeCharacter ⟨true, [], EscapeBase.base10⟩ 38 =
      escapeCharacter ⟨true, [], EscapeBase.base16⟩ 38 ∧
    escapeCharacter ⟨true, [], EscapeBase.base10⟩ 65 = [38, 35] ++ natDigits10 65 :=
  ⟨claim_C9_escape_base.1 true [] 38 (by decide),
    (claim_C9_escape_base.2.1 true [] 65 (by decide) (by decide)).1⟩

/-- C10: `escapeData` preserves every double quote and apostrophe of the
input verbatim (the subsequence of quote characters of the output equals
that of the input), for every configuration, so its output is not made
safe for quoted attribute contexts. -/
theorem claim_C10_data_keeps_quotes (o : Options) (v : List Nat) :
    (Escaper.escapeData o v).filter isQuote = v.filter isQuote := by
  have hQ : ∀ c, (escapeCharacter o c).filter isQuote = [] := filter_isQuote_escCh o
  have h1 : ∀ c, inControl c = true → isQuote c = false := by
    intro c hc
    simp only [inControl, Bool.or_eq_true, beq_iff_eq, Bool.and_eq_true,
      decide_eq_true_eq] at hc
    simp only [isQuote, Bool.or_eq_false_iff, beq_eq_false_iff_ne]
    omega
  have h3 : ∀ c, inNonAscii 0x9999 c = true → isQuote c = false := by
    intro c hc
    simp only [inNonAscii, Bool.and_eq_true, decide_eq_true_eq] at hc
    simp only [isQuote, Bool.or_eq_false_iff, beq_eq_false_iff_ne]
    omega
  have h60 : ∀ c : Nat, (c == 60) = true →
      (escapeCharacter o c).filter isQuote = [] ∧ isQuote c = false := by
    intro c hc
    have : c = 60 := by simpa using hc
    subst this
    exact ⟨hQ 60, by decide⟩
  show (escapeGeneric 0x9999 (fun c => c == 60) o v).filter isQuote = v.filter isQuote
  unfold escapeGeneric
  by_cases hs : isSafe v = true
  · rw [if_pos hs]
  · rw [if_neg hs, filter_escapeRangesPass hQ h1 (by decide) h3,
      filter_replaceChars h60, filter_escapeAmpersand (hQ 38) (by decide),
      filter_replaceNull (by decide) (by decide)]
